import Mathlib

/-!
# Verification of the RegisterAlo intake-form application

Shallow embedding of the RegisterAlo repository (a React application with
two structurally parallel university intake forms, one Arabic and one
English, plus a language context).  The embedding covers:

* `src/context/LanguageContext.tsx` : `AppLanguage`, `LanguageProvider`
  state (`initialLanguage`, `stepLang`) and the `useLanguage` hook;
* `src/pages/Home.tsx` : which form variant is mounted (`homeMounted`);
* `src/components/UniversityIntakeForm.tsx` and
  `src/components/UniversityIntakeFormEn.tsx` : the full fixed control
  structure of the two forms (`sectionsAr` / `sectionsEn`), the
  `YesNoGroup` helper, the `handleSubmit` serialization
  (`formDataPairs` / `submitRecord`) and `handlePrintAsPdf`.

Form controls are modelled in document order.  Submission is modelled by
`FormData` semantics: every named text-like control contributes its
current value (the empty string when untouched, since no control carries
a `value`/`defaultChecked` attribute), while a checkbox or radio
contributes its `value` attribute exactly when it is checked.
`handleSubmit` then folds the entries into a plain JavaScript object via
`data[key] = value`, which is `setKey` (later entries overwrite earlier
ones with the same key).
-/

set_option maxRecDepth 4000

namespace RegisterAlo

/-- Supported language codes, from `LanguageContext.tsx` (`AppLanguage`). -/
inductive AppLanguage
  | ar
  | en
deriving DecidableEq

/-- The kind of an `<input>`/`<textarea>` control appearing in the forms.
Checkbox and radio controls carry their `value` attribute and their
`defaultChecked` attribute (no control in either form sets `checked`,
so the flag is `false` everywhere in the embedded forms). -/
inductive ControlKind
  | text
  | number
  | date
  | tel
  | email
  | textarea
  | checkbox (value : String) (defChecked : Bool)
  | radio (value : String) (defChecked : Bool)
deriving DecidableEq

/-- A named form control. -/
structure Control where
  name : String
  kind : ControlKind
deriving DecidableEq

/-- Is the control a checkbox or a radio button? -/
def isChoiceKind : ControlKind → Bool
  | ControlKind.checkbox _ _ => true
  | ControlKind.radio _ _ => true
  | _ => false

/-- The user-visible state of the form's controls at submission time:
the current text of each text-like control (by name) and, for each
(name, value) pair, whether that checkbox/radio is currently checked. -/
structure Filling where
  textVal : String → String
  checked : String → String → Bool

/-- The pristine state: nothing typed (no control has a `value`
attribute, so every text-like control holds `""`) and nothing checked
(no control has a `defaultChecked`/`checked` attribute). -/
def emptyFilling : Filling :=
  { textVal := fun _ => ""
    checked := fun _ _ => false }

/-- The `FormData` entry contributed by one control: text-like controls
always serialize to their current value; a checkbox/radio serializes to
its `value` attribute exactly when checked. -/
def entryOf (f : Filling) (c : Control) : Option (String × String) :=
  match c.kind with
  | ControlKind.checkbox v _ =>
      if f.checked c.name v then some (c.name, v) else none
  | ControlKind.radio v _ =>
      if f.checked c.name v then some (c.name, v) else none
  | _ => some (c.name, f.textVal c.name)

/-- `new FormData(form)` as the list of (name, value) entries in
document order. -/
def formDataPairs (form : List Control) (f : Filling) : List (String × String) :=
  form.filterMap (entryOf f)

/-- The JavaScript statement `data[key] = value` on a plain object
represented as an association list (keys are unique by construction,
since records are only ever built from `{}` by this operation): an
existing key is overwritten in place, a new key is appended, matching
JavaScript property insertion order. -/
def setKey : List (String × String) → String → String → List (String × String)
  | [], k, v => [(k, v)]
  | p :: rest, k, v =>
    if p.1 = k then (k, v) :: rest else p :: setKey rest k v

/-- `handleSubmit` of either form variant: iterate over the `FormData`
entries and store each into the record `data` via `data[key] = value`.
(The handler also calls `event.preventDefault()` and logs the record;
neither affects the record itself.) -/
def submitRecord (form : List Control) (f : Filling) : List (String × String) :=
  (formDataPairs form f).foldl (fun d kv => setKey d kv.1 kv.2) []

/-- `YesNoGroup` (defined identically in both form files): two radio
inputs sharing the given `name`, with values `"yes"` and `"no"`, neither
of them preselected. -/
def yesNoGroup (name : String) : List Control :=
  [⟨name, ControlKind.radio "yes" false⟩,
   ⟨name, ControlKind.radio "no" false⟩]

/-! ## Option lists of the Arabic form (`UniversityIntakeForm.tsx`) -/

/-- Project-goal checkbox options (section 2, Arabic). -/
def goalsAr : List String :=
  ["تقليل ضغط الموظفين",
   "رفع جودة الخدمة",
   "توفر 24/7",
   "تقليل وقت الانتظار",
   "توحيد الردود"]

/-- Department list (section 3, Arabic). -/
def deptsAr : List String :=
  ["القبول",
   "المالية",
   "شؤون الطلبة",
   "الدراسات العليا",
   "العلاقات العامة",
   "خدمة المجتمع",
   "شؤون الموظفين",
   "IT",
   "المكتبة",
   "الامتحانات",
   "المرافق",
   "الأمن والسلامة",
   "العيادة الطبية",
   "مركز الاستشارات",
   "مركز اللغات",
   "مركز التدريب",
   "مركز التوظيف",
   "مركز الابتكار",
   "مركز الجودة",
   "مركز البحث العلمي"]

/-- Language list (section 5, Arabic). -/
def langsAr : List String :=
  ["العربية",
   "الإنجليزية",
   "الفرنسية",
   "التركية",
   "الهندية",
   "الأردية"]

/-- Channel checkbox options (section 6, Arabic). -/
def channelsAr : List String :=
  ["صوت فقط (IVR ذكي)",
   "صوت + SMS",
   "صوت + WhatsApp",
   "صوت + Email",
   "صوت + بوابة إلكترونية / Chat Widget"]

/-- Scenario checkbox options (section 7, Arabic). -/
def scenariosAr : List String :=
  ["رسوم / سداد / متأخرات",
   "تسجيل مواد / حذف وإضافة",
   "قبول / حالة طلب",
   "متابعة معاملة / رقم طلب",
   "طلب شهادة / إفادة",
   "مواعيد (عيادة/استشارات/مقابلات)",
   "امتحانات / جداول / قاعات",
   "شكاوى / تصعيد",
   "دعم فني (L1)"]

/-- Knowledge-base item list (section 8, Arabic). -/
def kbAr : List String :=
  ["الأسئلة الشائعة FAQ",
   "دليل الطالب",
   "التقويم الأكاديمي",
   "شروط القبول",
   "الرسوم الدراسية",
   "البرامج الأكاديمية",
   "السياسات واللوائح",
   "دليل الموظفين",
   "روابط الأنظمة"]

/-- The thirteen `FormSection` titles of the Arabic form, in order. -/
def sectionTitlesAr : List String :=
  ["1) معلومات عامة",
   "2) الهدف من المشروع",
   "3) الأقسام المطلوبة + حجم المكالمات لكل قسم",
   "4) حجم المكالمات الكلي",
   "5) اللغات المطلوبة",
   "6) نوع القنوات المطلوبة",
   "7) سيناريوهات المكالمات (Use Cases)",
   "8) البيانات المتاحة لتغذية النظام (Knowledge Base)",
   "9) الأنظمة الموجودة داخل الجامعة (Integrations)",
   "10) صلاحيات الوصول والقيود الأمنية",
   "11) أسئلة تسعير أساسية",
   "12) تجربة المستخدم (Voice & Flow)",
   "13) ملاحظات إضافية"]

/-! ## Option lists of the English form (`UniversityIntakeFormEn.tsx`) -/

/-- Project-goal checkbox options (section 2, English). -/
def goalsEn : List String :=
  ["Reduce staff workload",
   "Improve service quality",
   "24/7 availability",
   "Reduce waiting time",
   "Standardize responses"]

/-- Department list (section 3, English). -/
def deptsEn : List String :=
  ["Admissions",
   "Finance",
   "Student Affairs",
   "Graduate Studies",
   "Public Relations",
   "Community Service",
   "HR / Staff Affairs",
   "IT",
   "Library",
   "Examinations",
   "Facilities",
   "Security & Safety",
   "Clinic / Medical Center",
   "Advisory Center",
   "Language Center",
   "Training Center",
   "Career Center",
   "Innovation Center",
   "Quality Center",
   "Research Center"]

/-- Language list (section 5, English). -/
def langsEn : List String :=
  ["Arabic",
   "English",
   "French",
   "Turkish",
   "Hindi",
   "Urdu"]

/-- Channel checkbox options (section 6, English). -/
def channelsEn : List String :=
  ["Voice only (smart IVR)",
   "Voice + SMS",
   "Voice + WhatsApp",
   "Voice + Email",
   "Voice + Web portal / Chat widget"]

/-- Scenario checkbox options (section 7, English). -/
def scenariosEn : List String :=
  ["Fees / Payments / Overdues",
   "Course registration / Add & Drop",
   "Admissions / Application status",
   "Follow-up on a request / ticket",
   "Certificates / Letters",
   "Appointments (clinic / advisory / interviews)",
   "Exams / schedules / halls",
   "Complaints / escalation",
   "Technical support (L1)"]

/-- Knowledge-base item list (section 8, English). -/
def kbEn : List String :=
  ["FAQ",
   "Student handbook",
   "Academic calendar",
   "Admission requirements",
   "Tuition fees",
   "Academic programs",
   "Policies and regulations",
   "Staff directory",
   "System links"]

/-- The thirteen `FormSection` titles of the English form, in order. -/
def sectionTitlesEn : List String :=
  ["1) General Information",
   "2) Project Objective",
   "3) Required Departments + Call Volume per Department",
   "4) Overall Call Volume",
   "5) Required Languages",
   "6) Required Channels",
   "7) Call Scenarios (Use Cases)",
   "8) Available Data for Knowledge Base",
   "9) Existing University Systems (Integrations)",
   "10) Access and Security Constraints",
   "11) Basic Pricing Questions",
   "12) User Experience (Voice & Flow)",
   "13) Additional Notes"]

/-! ## The thirteen sections of the Arabic form, control by control -/

/-- Section 1 (Arabic): general information. -/
def sec1Ar : List Control :=
  [⟨"universityName", ControlKind.text⟩,
   ⟨"cityCountry", ControlKind.text⟩,
   ⟨"contactName", ControlKind.text⟩,
   ⟨"jobTitle", ControlKind.text⟩,
   ⟨"phone", ControlKind.tel⟩,
   ⟨"email", ControlKind.email⟩,
   ⟨"bestTimeToContact", ControlKind.text⟩,
   ⟨"deadline", ControlKind.date⟩]

/-- Section 2 (Arabic): project objective. -/
def sec2Ar : List Control :=
  goalsAr.map (fun g => ⟨"projectGoals", ControlKind.checkbox g false⟩) ++
  [⟨"callcenterScope", ControlKind.radio "full-replacement" false⟩,
   ⟨"callcenterScope", ControlKind.radio "assistant" false⟩,
   ⟨"mvpScope", ControlKind.textarea⟩]

/-- Section 3 (Arabic): departments with per-department call volumes. -/
def sec3Ar : List Control :=
  (deptsAr.map (fun d =>
    [⟨"dept-" ++ d ++ "-daily", ControlKind.number⟩,
     ⟨"dept-" ++ d ++ "-offhours", ControlKind.number⟩])).flatten ++
  [⟨"otherDepartments", ControlKind.textarea⟩]

/-- Section 4 (Arabic): overall call volume. -/
def sec4Ar : List Control :=
  [⟨"totalDailyCalls", ControlKind.number⟩,
   ⟨"peakDailyCalls", ControlKind.number⟩,
   ⟨"peakHours", ControlKind.text⟩,
   ⟨"currentAgents", ControlKind.number⟩,
   ⟨"avgCallDuration", ControlKind.number⟩,
   ⟨"missedCallsPercent", ControlKind.number⟩]

/-- Section 5 (Arabic): required languages. -/
def sec5Ar : List Control :=
  langsAr.map (fun l => ⟨"lang-" ++ l, ControlKind.number⟩) ++
  [⟨"otherLanguageName", ControlKind.text⟩,
   ⟨"otherLanguagePercent", ControlKind.number⟩]

/-- Section 6 (Arabic): required channels. -/
def sec6Ar : List Control :=
  channelsAr.map (fun c => ⟨"channels", ControlKind.checkbox c false⟩) ++
  [⟨"channelsOther", ControlKind.text⟩,
   ⟨"numbersPreference", ControlKind.text⟩]

/-- Section 7 (Arabic): call scenarios, each with an identity-check
`YesNoGroup`. -/
def sec7Ar : List Control :=
  (scenariosAr.map (fun s =>
    ⟨"scenarios", ControlKind.checkbox s false⟩ ::
    yesNoGroup ("scenario-" ++ s ++ "-identity"))).flatten ++
  [⟨"otherScenarios", ControlKind.textarea⟩,
   ⟨"scenariosDetails", ControlKind.textarea⟩]

/-- Section 8 (Arabic): knowledge-base availability. -/
def sec8Ar : List Control :=
  (kbAr.map (fun i => yesNoGroup ("kb-" ++ i))).flatten ++
  yesNoGroup "kb-files-exist" ++
  [⟨"kb-files-count", ControlKind.number⟩,
   ⟨"kb-other", ControlKind.textarea⟩,
   ⟨"kb-languageUpdate", ControlKind.text⟩]

/-- Section 9 (Arabic): existing systems. -/
def sec9Ar : List Control :=
  [⟨"systems-academic", ControlKind.text⟩,
   ⟨"systems-callcenter", ControlKind.text⟩,
   ⟨"systems-crm", ControlKind.text⟩,
   ⟨"systems-other", ControlKind.textarea⟩]

/-- Section 10 (Arabic): access and security constraints. -/
def sec10Ar : List Control :=
  yesNoGroup "security-api" ++
  yesNoGroup "security-webhooks" ++
  yesNoGroup "security-readonly-db" ++
  yesNoGroup "security-sso" ++
  [⟨"security-constraints", ControlKind.textarea⟩]

/-- Section 11 (Arabic): pricing questions. -/
def sec11Ar : List Control :=
  [⟨"pricing-deployment", ControlKind.text⟩,
   ⟨"pricing-campuses", ControlKind.number⟩] ++
  yesNoGroup "pricing-247" ++
  [⟨"pricing-escalation-percent", ControlKind.number⟩,
   ⟨"pricing-recording", ControlKind.text⟩] ++
  yesNoGroup "pricing-dashboard" ++
  yesNoGroup "pricing-sla"

/-- Section 12 (Arabic): user experience. -/
def sec12Ar : List Control :=
  yesNoGroup "ux-greeting-script" ++
  [⟨"ux-voice-type", ControlKind.text⟩,
   ⟨"ux-ivr-type", ControlKind.text⟩] ++
  yesNoGroup "ux-ticket-number"

/-- Section 13 (Arabic): additional notes. -/
def sec13Ar : List Control :=
  [⟨"additional-notes", ControlKind.textarea⟩]

/-- All thirteen sections of the Arabic form, in document order. -/
def sectionsAr : List (List Control) :=
  [sec1Ar, sec2Ar, sec3Ar, sec4Ar, sec5Ar, sec6Ar, sec7Ar,
   sec8Ar, sec9Ar, sec10Ar, sec11Ar, sec12Ar, sec13Ar]

/-- Every control of the Arabic form, in document order. -/
def formAr : List Control := sectionsAr.flatten

/-! ## The thirteen sections of the English form, control by control -/

/-- Section 1 (English): general information. -/
def sec1En : List Control :=
  [⟨"universityName", ControlKind.text⟩,
   ⟨"cityCountry", ControlKind.text⟩,
   ⟨"contactName", ControlKind.text⟩,
   ⟨"jobTitle", ControlKind.text⟩,
   ⟨"phone", ControlKind.tel⟩,
   ⟨"email", ControlKind.email⟩,
   ⟨"bestTimeToContact", ControlKind.text⟩,
   ⟨"deadline", ControlKind.date⟩]

/-- Section 2 (English): project objective. -/
def sec2En : List Control :=
  goalsEn.map (fun g => ⟨"projectGoals", ControlKind.checkbox g false⟩) ++
  [⟨"callcenterScope", ControlKind.radio "full-replacement" false⟩,
   ⟨"callcenterScope", ControlKind.radio "assistant" false⟩,
   ⟨"mvpScope", ControlKind.textarea⟩]

/-- Section 3 (English): departments with per-department call volumes. -/
def sec3En : List Control :=
  (deptsEn.map (fun d =>
    [⟨"dept-" ++ d ++ "-daily", ControlKind.number⟩,
     ⟨"dept-" ++ d ++ "-offhours", ControlKind.number⟩])).flatten ++
  [⟨"otherDepartments", ControlKind.textarea⟩]

/-- Section 4 (English): overall call volume. -/
def sec4En : List Control :=
  [⟨"totalDailyCalls", ControlKind.number⟩,
   ⟨"peakDailyCalls", ControlKind.number⟩,
   ⟨"peakHours", ControlKind.text⟩,
   ⟨"currentAgents", ControlKind.number⟩,
   ⟨"avgCallDuration", ControlKind.number⟩,
   ⟨"missedCallsPercent", ControlKind.number⟩]

/-- Section 5 (English): required languages. -/
def sec5En : List Control :=
  langsEn.map (fun l => ⟨"lang-" ++ l, ControlKind.number⟩) ++
  [⟨"otherLanguageName", ControlKind.text⟩,
   ⟨"otherLanguagePercent", ControlKind.number⟩]

/-- Section 6 (English): required channels. -/
def sec6En : List Control :=
  channelsEn.map (fun c => ⟨"channels", ControlKind.checkbox c false⟩) ++
  [⟨"channelsOther", ControlKind.text⟩,
   ⟨"numbersPreference", ControlKind.text⟩]

/-- Section 7 (English): call scenarios, each with an identity-check
`YesNoGroup`. -/
def sec7En : List Control :=
  (scenariosEn.map (fun s =>
    ⟨"scenarios", ControlKind.checkbox s false⟩ ::
    yesNoGroup ("scenario-" ++ s ++ "-identity"))).flatten ++
  [⟨"otherScenarios", ControlKind.textarea⟩,
   ⟨"scenariosDetails", ControlKind.textarea⟩]

/-- Section 8 (English): knowledge-base availability. -/
def sec8En : List Control :=
  (kbEn.map (fun i => yesNoGroup ("kb-" ++ i))).flatten ++
  yesNoGroup "kb-files-exist" ++
  [⟨"kb-files-count", ControlKind.number⟩,
   ⟨"kb-other", ControlKind.textarea⟩,
   ⟨"kb-languageUpdate", ControlKind.text⟩]

/-- Section 9 (English): existing systems. -/
def sec9En : List Control :=
  [⟨"systems-academic", ControlKind.text⟩,
   ⟨"systems-callcenter", ControlKind.text⟩,
   ⟨"systems-crm", ControlKind.text⟩,
   ⟨"systems-other", ControlKind.textarea⟩]

/-- Section 10 (English): access and security constraints. -/
def sec10En : List Control :=
  yesNoGroup "security-api" ++
  yesNoGroup "security-webhooks" ++
  yesNoGroup "security-readonly-db" ++
  yesNoGroup "security-sso" ++
  [⟨"security-constraints", ControlKind.textarea⟩]

/-- Section 11 (English): pricing questions. -/
def sec11En : List Control :=
  [⟨"pricing-deployment", ControlKind.text⟩,
   ⟨"pricing-campuses", ControlKind.number⟩] ++
  yesNoGroup "pricing-247" ++
  [⟨"pricing-escalation-percent", ControlKind.number⟩,
   ⟨"pricing-recording", ControlKind.text⟩] ++
  yesNoGroup "pricing-dashboard" ++
  yesNoGroup "pricing-sla"

/-- Section 12 (English): user experience. -/
def sec12En : List Control :=
  yesNoGroup "ux-greeting-script" ++
  [⟨"ux-voice-type", ControlKind.text⟩,
   ⟨"ux-ivr-type", ControlKind.text⟩] ++
  yesNoGroup "ux-ticket-number"

/-- Section 13 (English): additional notes. -/
def sec13En : List Control :=
  [⟨"additional-notes", ControlKind.textarea⟩]

/-- All thirteen sections of the English form, in document order. -/
def sectionsEn : List (List Control) :=
  [sec1En, sec2En, sec3En, sec4En, sec5En, sec6En, sec7En,
   sec8En, sec9En, sec10En, sec11En, sec12En, sec13En]

/-- Every control of the English form, in document order. -/
def formEn : List Control := sectionsEn.flatten


/-! ## Derived name lists -/

/-- The names of all text-like (non-checkbox, non-radio) controls of a
form, in document order. -/
def textNames (form : List Control) : List String :=
  (form.filter (fun c => !(isChoiceKind c.kind))).map (fun c => c.name)

/-- The names of all checkbox and radio controls of a form. -/
def choiceNames (form : List Control) : List String :=
  (form.filter (fun c => isChoiceKind c.kind)).map (fun c => c.name)

/-- The input names of the Arabic form that embed a localized option
string: per-department call-volume fields, per-language percentage
fields, per-scenario identity radio groups and per-item knowledge-base
radio groups. -/
def optionNamesAr : List String :=
  deptsAr.map (fun d => "dept-" ++ d ++ "-daily") ++
  deptsAr.map (fun d => "dept-" ++ d ++ "-offhours") ++
  langsAr.map (fun l => "lang-" ++ l) ++
  scenariosAr.map (fun s => "scenario-" ++ s ++ "-identity") ++
  kbAr.map (fun i => "kb-" ++ i)

/-- The input names of the English form that embed a localized option
string. -/
def optionNamesEn : List String :=
  deptsEn.map (fun d => "dept-" ++ d ++ "-daily") ++
  deptsEn.map (fun d => "dept-" ++ d ++ "-offhours") ++
  langsEn.map (fun l => "lang-" ++ l) ++
  scenariosEn.map (fun s => "scenario-" ++ s ++ "-identity") ++
  kbEn.map (fun i => "kb-" ++ i)

/-- The hard-coded (not option-derived) input names, identical in both
form variants, in document order. -/
def hardcodedNames : List String :=
  ["universityName", "cityCountry", "contactName", "jobTitle", "phone",
   "email", "bestTimeToContact", "deadline",
   "projectGoals", "callcenterScope", "mvpScope",
   "otherDepartments",
   "totalDailyCalls", "peakDailyCalls", "peakHours", "currentAgents",
   "avgCallDuration", "missedCallsPercent",
   "otherLanguageName", "otherLanguagePercent",
   "channels", "channelsOther", "numbersPreference",
   "scenarios", "otherScenarios", "scenariosDetails",
   "kb-files-exist", "kb-files-count", "kb-other", "kb-languageUpdate",
   "systems-academic", "systems-callcenter", "systems-crm", "systems-other",
   "security-api", "security-webhooks", "security-readonly-db",
   "security-sso", "security-constraints",
   "pricing-deployment", "pricing-campuses", "pricing-247",
   "pricing-escalation-percent", "pricing-recording", "pricing-dashboard",
   "pricing-sla",
   "ux-greeting-script", "ux-voice-type", "ux-ivr-type", "ux-ticket-number",
   "additional-notes"]

/-! ## Structural shape of a control (for the variant comparison) -/

/-- The kind of a field with its textual content (checkbox/radio `value`
strings) erased: what remains is the structural shape the two variants
are compared on. -/
inductive FieldShape
  | text
  | number
  | date
  | tel
  | email
  | textarea
  | checkbox
  | radio
deriving DecidableEq

/-- Erase the textual content of a control kind. -/
def shapeOf : ControlKind → FieldShape
  | ControlKind.text => FieldShape.text
  | ControlKind.number => FieldShape.number
  | ControlKind.date => FieldShape.date
  | ControlKind.tel => FieldShape.tel
  | ControlKind.email => FieldShape.email
  | ControlKind.textarea => FieldShape.textarea
  | ControlKind.checkbox _ _ => FieldShape.checkbox
  | ControlKind.radio _ _ => FieldShape.radio

/-! ## Language context, Home page and print action -/

/-- `LanguageProvider` initializes its state with `useState('ar')`. -/
def initialLanguage : AppLanguage := AppLanguage.ar

/-- The `setLanguage` state update: the new state is the argument,
regardless of the previous state. -/
def stepLang (_current : AppLanguage) (next : AppLanguage) : AppLanguage := next

/-- The language state after a finite sequence of `setLanguage` calls,
starting from the provider's initial state. -/
def languageAfter (toggles : List AppLanguage) : AppLanguage :=
  toggles.foldl stepLang initialLanguage

/-- Modelled from the spec claim's wording: the argument of the last
toggle action, or the given current language if there were none. -/
def specLastToggle (current : AppLanguage) : List AppLanguage → AppLanguage
  | [] => current
  | t :: ts => specLastToggle t ts

/-- The other language (used to state the round-trip property). -/
def otherLang : AppLanguage → AppLanguage
  | AppLanguage.ar => AppLanguage.en
  | AppLanguage.en => AppLanguage.ar

/-- The two intake-form variants. -/
inductive Variant
  | arForm
  | enForm
deriving DecidableEq

/-- `Home` mounts exactly one variant per render:
`isArabic ? <UniversityIntakeForm /> : <UniversityIntakeFormEn />`. -/
def homeMounted (l : AppLanguage) : List Variant :=
  if l = AppLanguage.ar then [Variant.arForm] else [Variant.enForm]

/-- The language-dependent part of the rendered page: the mounted form's
section titles and its full control structure.  Both form components are
stateless, so this is a pure function of the active language. -/
structure RenderedApp where
  titles : List String
  controls : List Control
deriving DecidableEq

/-- What `Home` renders for each language. -/
def renderApp : AppLanguage → RenderedApp
  | AppLanguage.ar => ⟨sectionTitlesAr, formAr⟩
  | AppLanguage.en => ⟨sectionTitlesEn, formEn⟩

/-- The value stored in the language context. -/
structure LanguageContextValue where
  language : AppLanguage
deriving DecidableEq

/-- The `useLanguage` hook: `useContext` yields the provider's value or
`undefined` outside a provider scope; in the latter case the hook throws
`Error('useLanguage must be used within a LanguageProvider')`. -/
def useLanguage : Option LanguageContextValue → Except String LanguageContextValue
  | none => Except.error "useLanguage must be used within a LanguageProvider"
  | some ctx => Except.ok ctx

/-- Result of the print action. -/
inductive PrintEffect
  | printed
  | noop
deriving DecidableEq

/-- `handlePrintAsPdf` (defined identically in both form variants):
`window.print()` only when `typeof window !== 'undefined'`, otherwise a
silent no-op; in either case no value is returned and no error is
raised. -/
def handlePrintAsPdf (windowDefined : Bool) : PrintEffect :=
  if windowDefined then PrintEffect.printed else PrintEffect.noop

/-! ## Concrete fillings used as test inputs -/

/-- Checking the first two project-goal checkboxes of the Arabic form
and touching nothing else. -/
def fillingTwoGoals : Filling :=
  { textVal := fun _ => ""
    checked := fun n v =>
      n == "projectGoals" &&
      (v == "تقليل ضغط الموظفين" || v == "رفع جودة الخدمة") }

/-- Typing `Future University` into the `universityName` field and
touching nothing else. -/
def fillingOneText : Filling :=
  { textVal := fun n => if n == "universityName" then "Future University" else ""
    checked := fun _ _ => false }

/-- The value of the last `FormData` entry carrying the given key, if
any (later entries win). -/
def lastLookup (pairs : List (String × String)) (k : String) : Option String :=
  match pairs with
  | [] => none
  | kv :: rest =>
    match lastLookup rest k with
    | some v => some v
    | none => if kv.1 = k then some kv.2 else none

end RegisterAlo

namespace RegisterAlo

/-! ## Generic lemmas about the record-building fold -/

/-- `List.lookup` on a cons cell whose key matches. -/
theorem lookup_cons_self (k v : String) (l : List (String × String)) :
    List.lookup k ((k, v) :: l) = some v := by
  simp [List.lookup]

/-- `List.lookup` skips a cons cell whose key differs. -/
theorem lookup_cons_ne {k p : String} (h : k ≠ p) (v : String)
    (l : List (String × String)) :
    List.lookup k ((p, v) :: l) = List.lookup k l := by
  simp [List.lookup, beq_eq_false_iff_ne.mpr h]

/-- Characterization of `data[key] = value`: looking up the stored key
yields the stored value, all other keys are untouched. -/
theorem lookup_setKey (d : List (String × String)) (k v k' : String) :
    List.lookup k' (setKey d k v)
      = if k' = k then some v else List.lookup k' d := by
  induction d with
  | nil =>
    by_cases h : k' = k
    · subst h
      rw [if_pos rfl]
      exact lookup_cons_self k' v []
    · rw [if_neg h]
      exact lookup_cons_ne h v []
  | cons p d ih =>
    obtain ⟨pk, pv⟩ := p
    by_cases hp : pk = k
    · subst hp
      have hs : setKey ((pk, pv) :: d) pk v = (pk, v) :: d := by
        simp [setKey]
      rw [hs]
      by_cases hk : k' = pk
      · subst hk
        rw [if_pos rfl, lookup_cons_self]
      · rw [if_neg hk, lookup_cons_ne hk, lookup_cons_ne hk]
    · have hs : setKey ((pk, pv) :: d) k v = (pk, pv) :: setKey d k v := by
        simp [setKey, hp]
      rw [hs]
      by_cases hk : k' = pk
      · have hne : k' ≠ k := by
          intro he
          exact hp (by rw [← hk, he])
        rw [if_neg hne]
        subst hk
        rw [lookup_cons_self, lookup_cons_self]
      · rw [lookup_cons_ne hk, lookup_cons_ne hk, ih]

/-- Folding `setKey` over a list of entries: the resulting record gives
each key the value of the last entry carrying it, falling back to the
initial record. -/
theorem lookup_foldl_setKey (pairs : List (String × String))
    (d : List (String × String)) (k : String) :
    List.lookup k (pairs.foldl (fun acc kv => setKey acc kv.1 kv.2) d)
      = match lastLookup pairs k with
        | some v => some v
        | none => List.lookup k d := by
  induction pairs generalizing d with
  | nil => rfl
  | cons kv rest ih =>
    simp only [List.foldl]
    rw [ih]
    cases h : lastLookup rest k with
    | some v => simp [lastLookup, h]
    | none =>
      simp only [lastLookup, h]
      rw [lookup_setKey]
      by_cases hk : kv.1 = k
      · simp [hk]
      · have hk2 : k ≠ kv.1 := fun hh => hk hh.symm
        simp [hk, hk2]

/-- The submission record realizes last-wins semantics on the `FormData`
entry list. -/
theorem lookup_submitRecord (form : List Control) (f : Filling) (k : String) :
    List.lookup k (submitRecord form f)
      = lastLookup (formDataPairs form f) k := by
  unfold submitRecord
  rw [lookup_foldl_setKey]
  cases h : lastLookup (formDataPairs form f) k <;> simp [List.lookup]

/-- Setting a key absent from the record appends the pair. -/
theorem setKey_eq_append (d : List (String × String)) (k v : String)
    (h : ∀ p ∈ d, p.1 ≠ k) :
    setKey d k v = d ++ [(k, v)] := by
  induction d with
  | nil => rfl
  | cons p d ih =>
    have hp : p.1 ≠ k := h p (List.mem_cons_self p d)
    have hd : ∀ q ∈ d, q.1 ≠ k := fun q hq => h q (List.mem_cons_of_mem p hq)
    simp [setKey, hp, ih hd]

/-- Folding `setKey` over entries with pairwise-distinct keys, all fresh
for the initial record, just appends the entries. -/
theorem foldl_setKey_of_nodup (pairs : List (String × String)) :
    ∀ d : List (String × String),
      ((d ++ pairs).map Prod.fst).Nodup →
      pairs.foldl (fun acc kv => setKey acc kv.1 kv.2) d = d ++ pairs := by
  induction pairs with
  | nil =>
    intro d _
    simp
  | cons kv rest ih =>
    intro d hnd
    have hfresh : ∀ p ∈ d, p.1 ≠ kv.1 := by
      intro p hp he
      have h2 : ((d ++ kv :: rest).map Prod.fst).Nodup := hnd
      rw [List.map_append, List.nodup_append] at h2
      exact h2.2.2 (List.mem_map_of_mem Prod.fst hp) (by simp [he])
    simp only [List.foldl]
    rw [setKey_eq_append d kv.1 kv.2 hfresh]
    have hnd2 : (((d ++ [kv]) ++ rest).map Prod.fst).Nodup := by
      simpa using hnd
    rw [ih (d ++ [kv]) hnd2]
    simp

/-- When the `FormData` entry keys are pairwise distinct, the submission
record is the entry list itself. -/
theorem submitRecord_eq_pairs (form : List Control) (f : Filling)
    (h : ((formDataPairs form f).map Prod.fst).Nodup) :
    submitRecord form f = formDataPairs form f := by
  unfold submitRecord
  have := foldl_setKey_of_nodup (formDataPairs form f) [] (by simpa using h)
  simpa using this

/-- A `filterMap` by an if-none function is a `map` over a `filter`. -/
theorem filterMap_ite_none {α β : Type} (g : α → β) (p : α → Bool)
    (form : List α) :
    form.filterMap (fun c => if p c then none else some (g c))
      = (form.filter (fun c => !(p c))).map g := by
  induction form with
  | nil => rfl
  | cons c form ih =>
    cases hp : p c with
    | true => simp [List.filterMap_cons, List.filter_cons, hp, ih]
    | false => simp [List.filterMap_cons, List.filter_cons, hp, ih]

/-- With no checkbox or radio checked, the `FormData` entries are
exactly the text-like controls paired with their current values. -/
theorem formDataPairs_unchecked (form : List Control) (f : Filling)
    (h : ∀ n v, f.checked n v = false) :
    formDataPairs form f
      = (form.filter (fun c => !(isChoiceKind c.kind))).map
          (fun c => (c.name, f.textVal c.name)) := by
  have he : entryOf f
      = fun c => if isChoiceKind c.kind then none
                 else some ((fun c : Control => (c.name, f.textVal c.name)) c) := by
    funext c
    cases hk : c.kind <;> simp [entryOf, isChoiceKind, hk, h]
  unfold formDataPairs
  rw [he]
  exact filterMap_ite_none (fun c : Control => (c.name, f.textVal c.name))
    (fun c => isChoiceKind c.kind) form

/-- Looking a name up in a keyed `map` over a name list containing it. -/
theorem lookup_map_pair (g : String → String) (l : List String) (n : String)
    (h : n ∈ l) :
    List.lookup n (l.map (fun m => (m, g m))) = some (g n) := by
  induction l with
  | nil => cases h
  | cons m l ih =>
    by_cases hm : n = m
    · subst hm
      simp only [List.map_cons]
      exact lookup_cons_self n (g n) _
    · have h2 : n ∈ l := by
        cases List.mem_cons.mp h with
        | inl he => exact absurd he hm
        | inr hl => exact hl
      simp only [List.map_cons]
      rw [lookup_cons_ne hm, ih h2]

/-- If no entry carries the key, `lastLookup` finds nothing. -/
theorem lastLookup_eq_none (pairs : List (String × String)) (n : String)
    (h : ∀ kv ∈ pairs, kv.1 ≠ n) :
    lastLookup pairs n = none := by
  induction pairs with
  | nil => rfl
  | cons kv rest ih =>
    have h1 : kv.1 ≠ n := h kv (List.mem_cons_self kv rest)
    have h2 : ∀ q ∈ rest, q.1 ≠ n := fun q hq => h q (List.mem_cons_of_mem kv hq)
    simp [lastLookup, ih h2, h1]

/-- A control only ever contributes an entry carrying its own name. -/
theorem entryOf_name (f : Filling) (c : Control) (kv : String × String)
    (h : entryOf f c = some kv) : kv.1 = c.name := by
  cases hk : c.kind with
  | checkbox v dc =>
    simp only [entryOf, hk] at h
    split at h
    · cases h
      rfl
    · cases h
  | radio v dc =>
    simp only [entryOf, hk] at h
    split at h
    · cases h
      rfl
    · cases h
  | text =>
    simp only [entryOf, hk] at h
    cases h
    rfl
  | number =>
    simp only [entryOf, hk] at h
    cases h
    rfl
  | date =>
    simp only [entryOf, hk] at h
    cases h
    rfl
  | tel =>
    simp only [entryOf, hk] at h
    cases h
    rfl
  | email =>
    simp only [entryOf, hk] at h
    cases h
    rfl
  | textarea =>
    simp only [entryOf, hk] at h
    cases h
    rfl

/-- With no checkbox or radio checked and pairwise-distinct text-field
names, the record's keys are exactly the text-like control names and
each maps to the current value of its field. -/
theorem submit_unchecked_general (form : List Control) (f : Filling)
    (h : ∀ n v, f.checked n v = false)
    (hnd : (textNames form).Nodup) :
    (submitRecord form f).map Prod.fst = textNames form ∧
    ∀ n ∈ textNames form,
      List.lookup n (submitRecord form f) = some (f.textVal n) := by
  have hpairs : formDataPairs form f
      = (textNames form).map (fun m => (m, f.textVal m)) := by
    rw [formDataPairs_unchecked form f h]
    unfold textNames
    rw [List.map_map]
    rfl
  have hkeys : (formDataPairs form f).map Prod.fst = textNames form := by
    have hcomp : (Prod.fst ∘ fun m : String => (m, f.textVal m))
        = fun m : String => m := rfl
    rw [hpairs, List.map_map, hcomp]
    exact List.map_id (textNames form)
  have hrec : submitRecord form f = formDataPairs form f :=
    submitRecord_eq_pairs form f (by rw [hkeys]; exact hnd)
  constructor
  · rw [hrec, hkeys]
  · intro n hn
    rw [hrec, hpairs]
    exact lookup_map_pair (fun m => f.textVal m) (textNames form) n hn

/-- The language state after a toggle sequence is the last toggle's
argument (generalized over the initial state). -/
theorem foldl_stepLang (ts : List AppLanguage) :
    ∀ i : AppLanguage, ts.foldl stepLang i = specLastToggle i ts := by
  induction ts with
  | nil =>
    intro i
    rfl
  | cons t ts ih =>
    intro i
    exact ih t

/-- The keys of `setKey d k v` are among the keys of `d` and `k`. -/
theorem mem_keys_setKey (d : List (String × String)) (k v a : String)
    (h : a ∈ (setKey d k v).map Prod.fst) :
    a ∈ d.map Prod.fst ∨ a = k := by
  induction d with
  | nil =>
    simp [setKey] at h
    exact Or.inr h
  | cons p d ih =>
    by_cases hp : p.1 = k
    · have hs : setKey (p :: d) k v = (k, v) :: d := by
        simp [setKey, hp]
      rw [hs, List.map_cons] at h
      cases List.mem_cons.mp h with
      | inl he => exact Or.inr he
      | inr hm =>
        rw [List.map_cons]
        exact Or.inl (List.mem_cons_of_mem p.1 hm)
    · have hs : setKey (p :: d) k v = p :: setKey d k v := by
        simp [setKey, hp]
      rw [hs, List.map_cons] at h
      cases List.mem_cons.mp h with
      | inl he =>
        rw [List.map_cons]
        exact Or.inl (he ▸ List.mem_cons_self p.1 (d.map Prod.fst))
      | inr hm =>
        cases ih hm with
        | inl h1 =>
          rw [List.map_cons]
          exact Or.inl (List.mem_cons_of_mem p.1 h1)
        | inr h1 => exact Or.inr h1

/-- `data[key] = value` preserves distinctness of the record's keys. -/
theorem setKey_keys_nodup (d : List (String × String)) (k v : String)
    (h : (d.map Prod.fst).Nodup) :
    ((setKey d k v).map Prod.fst).Nodup := by
  induction d with
  | nil => simp [setKey]
  | cons p d ih =>
    rw [List.map_cons] at h
    have hnotin : p.1 ∉ d.map Prod.fst := (List.nodup_cons.mp h).1
    have hd : (d.map Prod.fst).Nodup := (List.nodup_cons.mp h).2
    by_cases hp : p.1 = k
    · have hs : setKey (p :: d) k v = (k, v) :: d := by
        simp [setKey, hp]
      rw [hs, List.map_cons]
      exact List.nodup_cons.mpr ⟨hp ▸ hnotin, hd⟩
    · have hs : setKey (p :: d) k v = p :: setKey d k v := by
        simp [setKey, hp]
      rw [hs, List.map_cons]
      refine List.nodup_cons.mpr ⟨?_, ih hd⟩
      intro hmem
      cases mem_keys_setKey d k v p.1 hmem with
      | inl h1 => exact hnotin h1
      | inr h1 => exact hp h1

/-- Folding `setKey` from a record with distinct keys keeps the keys
distinct. -/
theorem foldl_setKey_keys_nodup (pairs : List (String × String)) :
    ∀ d : List (String × String), (d.map Prod.fst).Nodup →
      ((pairs.foldl (fun acc kv => setKey acc kv.1 kv.2) d).map
        Prod.fst).Nodup := by
  induction pairs with
  | nil =>
    intro d hd
    exact hd
  | cons kv rest ih =>
    intro d hd
    exact ih (setKey d kv.1 kv.2) (setKey_keys_nodup d kv.1 kv.2 hd)

/-- Every submission record is a plain object: its keys are pairwise
distinct, so it holds at most one value per field name. -/
theorem submitRecord_keys_nodup (form : List Control) (f : Filling) :
    ((submitRecord form f).map Prod.fst).Nodup := by
  unfold submitRecord
  exact foldl_setKey_keys_nodup (formDataPairs form f) [] (by simp)

/-- In an association list with distinct keys, membership determines the
lookup. -/
theorem lookup_of_mem_nodup (k v : String) :
    ∀ d : List (String × String), (d.map Prod.fst).Nodup → (k, v) ∈ d →
      List.lookup k d = some v := by
  intro d
  induction d with
  | nil =>
    intro _ h
    cases h
  | cons p d ih =>
    intro hnd h
    obtain ⟨pk, pv⟩ := p
    rw [List.map_cons] at hnd
    have hnotin := (List.nodup_cons.mp hnd).1
    have hd := (List.nodup_cons.mp hnd).2
    cases List.mem_cons.mp h with
    | inl he =>
      rw [Prod.mk.injEq] at he
      obtain ⟨h1, h2⟩ := he
      subst h1
      subst h2
      exact lookup_cons_self k v d
    | inr hm =>
      by_cases hk : k = pk
      · exfalso
        have hmem : k ∈ d.map Prod.fst := List.mem_map_of_mem Prod.fst hm
        rw [hk] at hmem
        exact hnotin hmem
      · rw [lookup_cons_ne hk pv d]
        exact ih hd hm

/-! ## Claim theorems -/

/-- C1, counterexample: checking the first two `projectGoals` checkboxes
of the Arabic form does not produce a multi-valued entry holding both
selected option strings — the submission record maps `projectGoals` to
the second option only, and the first option's literal string appears
nowhere in the record. -/
theorem submit_two_goals_loses_first :
    List.lookup "projectGoals" (submitRecord formAr fillingTwoGoals)
      = some "رفع جودة الخدمة" ∧
    (submitRecord formAr fillingTwoGoals).all
      (fun kv => !(kv.2 == "تقليل ضغط الموظفين")) = true := by
  decide

/-- C1, amended: in either form variant, for every field name and every
filling — so in particular for each checkbox group whose name is shared
by several selected options (`projectGoals`, `channels`, `scenarios`) —
the submission record holds under that name a single value, that of the
last `FormData` entry carrying the name in document order (for a
checkbox group, the last selected option; later `data[key] = value`
stores overwrite earlier ones); and nothing but that last value is
stored under the name, so the earlier selected options' strings do not
occur under it. -/
theorem submit_repeated_names_last_wins (f : Filling) (k : String) :
    (List.lookup k (submitRecord formAr f)
        = lastLookup (formDataPairs formAr f) k ∧
      ∀ v, (k, v) ∈ submitRecord formAr f →
        lastLookup (formDataPairs formAr f) k = some v) ∧
    (List.lookup k (submitRecord formEn f)
        = lastLookup (formDataPairs formEn f) k ∧
      ∀ v, (k, v) ∈ submitRecord formEn f →
        lastLookup (formDataPairs formEn f) k = some v) := by
  refine ⟨⟨lookup_submitRecord formAr f k, ?_⟩,
          ⟨lookup_submitRecord formEn f k, ?_⟩⟩
  · intro v hv
    have hl := lookup_of_mem_nodup k v (submitRecord formAr f)
      (submitRecord_keys_nodup formAr f) hv
    rw [lookup_submitRecord formAr f k] at hl
    exact hl
  · intro v hv
    have hl := lookup_of_mem_nodup k v (submitRecord formEn f)
      (submitRecord_keys_nodup formEn f) hv
    rw [lookup_submitRecord formEn f k] at hl
    exact hl

/-- C2, counterexample: filling only the `universityName` text field of
the Arabic form yields a record whose keys are not exactly the filled
field names — the unfilled `cityCountry` field still appears as a key
(with the empty string), while the filled field maps to its literal
string. -/
theorem submit_partial_fill_has_unfilled_key :
    List.lookup "universityName" (submitRecord formAr fillingOneText)
      = some "Future University" ∧
    List.lookup "cityCountry" (submitRecord formAr fillingOneText)
      = some "" := by
  decide

/-- C2, amended: for any submission of either variant with no checkbox
or radio selected, the record's keys are exactly the names of all
text-like fields of that variant (filled or not, pairwise distinct),
and each such key maps to exactly the literal string entered into that
field (the empty string when unfilled). -/
theorem submit_unchecked_record (f : Filling)
    (h : ∀ n v, f.checked n v = false) :
    ((submitRecord formAr f).map Prod.fst = textNames formAr ∧
      ∀ n ∈ textNames formAr,
        List.lookup n (submitRecord formAr f) = some (f.textVal n)) ∧
    ((submitRecord formEn f).map Prod.fst = textNames formEn ∧
      ∀ n ∈ textNames formEn,
        List.lookup n (submitRecord formEn f) = some (f.textVal n)) :=
  ⟨submit_unchecked_general formAr f h (by decide),
   submit_unchecked_general formEn f h (by decide)⟩

/-- Witness for C2 (amended): on the concrete filling that types
`Future University` into `universityName` and touches nothing else, the
submitted record's keys are the Arabic form's text-field names and the
filled field maps to its literal string. -/
theorem submit_unchecked_record_witness :
    (submitRecord formAr fillingOneText).map Prod.fst = textNames formAr ∧
    List.lookup "universityName" (submitRecord formAr fillingOneText)
      = some "Future University" := by
  have h := submit_unchecked_record fillingOneText (fun _ _ => rfl)
  refine ⟨h.1.1, ?_⟩
  have h2 := h.1.2 "universityName" (by decide)
  exact h2.trans (by decide)

/-- C3: submitting the Arabic form with every field left empty produces
a record in which every value is the empty string and no checkbox or
radio name appears among the keys (the handler itself is a total
function, so no error is raised). -/
theorem empty_arabic_submission :
    (submitRecord formAr emptyFilling).all (fun kv => kv.2 == "") = true ∧
    (submitRecord formAr emptyFilling).all
      (fun kv => !((choiceNames formAr).contains kv.1)) = true := by
  decide

/-- C4: the language state starts at `ar`, is updated only by
`setLanguage`, and after any finite toggle sequence equals the argument
of the last toggle (or `ar` if there were none); `Home` always mounts
exactly one of the two form variants, the Arabic one precisely when the
language is `ar`. -/
theorem language_state_last_toggle (ts : List AppLanguage) :
    languageAfter ts = specLastToggle initialLanguage ts ∧
    (homeMounted (languageAfter ts)).length = 1 ∧
    (homeMounted (languageAfter ts) = [Variant.arForm]
      ↔ languageAfter ts = AppLanguage.ar) := by
  refine ⟨foldl_stepLang ts initialLanguage, ?_, ?_⟩
  · cases languageAfter ts <;> decide
  · cases h : languageAfter ts <;> decide

/-- C5: calling `useLanguage` outside an active `LanguageProvider` scope
raises the error `useLanguage must be used within a LanguageProvider`;
inside a provider scope it never raises and returns the context value
(current language with its setter).  This `throw` is the only explicit
error condition in the repository's source; accordingly every other
operation in this embedding is a total function. -/
theorem useLanguage_fail_fast :
    useLanguage none
      = Except.error "useLanguage must be used within a LanguageProvider" ∧
    ∀ ctx : LanguageContextValue, useLanguage (some ctx) = Except.ok ctx :=
  ⟨rfl, fun _ => rfl⟩

/-- C6: the print action never throws — with a window object it prints,
without one it is a silent no-op, and in every host environment it
terminates with one of these two outcomes and returns no value. -/
theorem handlePrintAsPdf_never_throws :
    handlePrintAsPdf true = PrintEffect.printed ∧
    handlePrintAsPdf false = PrintEffect.noop ∧
    ∀ w : Bool, handlePrintAsPdf w = PrintEffect.printed ∨
      handlePrintAsPdf w = PrintEffect.noop := by
  refine ⟨rfl, rfl, ?_⟩
  intro w
  cases w
  · exact Or.inr rfl
  · exact Or.inl rfl

/-- C7: for every field name, `YesNoGroup` renders exactly two radio
options sharing that name with values `yes` and `no`, neither
preselected; and in any form whose controls with that name are exactly
such radios, a submission in which neither is selected omits the name
from the record entirely. -/
theorem yesNoGroup_two_options_no_default (n : String) :
    yesNoGroup n = [⟨n, ControlKind.radio "yes" false⟩,
                    ⟨n, ControlKind.radio "no" false⟩] ∧
    ∀ (form : List Control) (f : Filling),
      (∀ c ∈ form, c.name = n →
        c.kind = ControlKind.radio "yes" false ∨
        c.kind = ControlKind.radio "no" false) →
      f.checked n "yes" = false →
      f.checked n "no" = false →
      List.lookup n (submitRecord form f) = none := by
  refine ⟨rfl, ?_⟩
  intro form f hform hyes hno
  rw [lookup_submitRecord]
  apply lastLookup_eq_none
  intro kv hkv hn
  unfold formDataPairs at hkv
  rcases List.mem_filterMap.mp hkv with ⟨c, hc, he⟩
  have hname := entryOf_name f c kv he
  have hcn : c.name = n := by rw [← hname, hn]
  rcases hform c hc hcn with h1 | h1
  · simp [entryOf, h1, hcn, hyes] at he
  · simp [entryOf, h1, hcn, hno] at he

/-- Witness for C7: in the Arabic form the only controls named
`pricing-247` are the two `YesNoGroup` radios, and the pristine
submission omits that name. -/
theorem yesNoGroup_two_options_no_default_witness :
    formAr.all (fun c => !(c.name == "pricing-247") ||
      (c.kind == ControlKind.radio "yes" false ||
       c.kind == ControlKind.radio "no" false)) = true ∧
    List.lookup "pricing-247" (submitRecord formAr emptyFilling) = none := by
  refine ⟨by decide, ?_⟩
  exact (yesNoGroup_two_options_no_default "pricing-247").2 formAr emptyFilling
    (by decide) rfl rfl

/-- C8: the two variants are structurally identical — thirteen sections
each, in the same order, with the same number and kinds of fields per
section (after erasing text content) and equal option-list
cardinalities; both control lists are fixed enumerations with no
dynamic or conditional fields. -/
theorem variants_structurally_identical :
    sectionsAr.length = 13 ∧ sectionsEn.length = 13 ∧
    sectionsAr.map (fun s => s.map (fun c => shapeOf c.kind))
      = sectionsEn.map (fun s => s.map (fun c => shapeOf c.kind)) ∧
    goalsAr.length = goalsEn.length ∧
    deptsAr.length = deptsEn.length ∧
    langsAr.length = langsEn.length ∧
    channelsAr.length = channelsEn.length ∧
    scenariosAr.length = scenariosEn.length ∧
    kbAr.length = kbEn.length := by
  decide

/-- C9: switching the language to the other value and back is a
round-trip — the language state returns to its previous value and the
rendered output (the mounted variant's section titles and control
structure, a pure function of the language since both form components
are stateless) is restored exactly. -/
theorem language_roundtrip (l : AppLanguage) :
    stepLang (stepLang l (otherLang l)) l = l ∧
    renderApp (stepLang (stepLang l (otherLang l)) l) = renderApp l :=
  ⟨rfl, rfl⟩

/-- C10, counterexample: the option-derived field names of the two
variants are not disjoint — the department option `IT` is spelled
identically in both lists, so `dept-IT-daily` is an option-derived name
of both variants, and every submission of either variant contains it as
a key. -/
theorem option_derived_names_not_disjoint :
    "dept-IT-daily" ∈ optionNamesAr ∧
    "dept-IT-daily" ∈ optionNamesEn ∧
    List.lookup "dept-IT-daily" (submitRecord formAr emptyFilling)
      = some "" ∧
    List.lookup "dept-IT-daily" (submitRecord formEn emptyFilling)
      = some "" := by
  decide

/-- C10, amended: the option-derived names of the two variants are
disjoint except for the shared department option `IT`: their
intersection is exactly `dept-IT-daily` and `dept-IT-offhours`, every
name common to both forms is either hard-coded or one of those two, and
all hard-coded names occur in both variants. -/
theorem option_derived_names_intersection :
    optionNamesAr.filter (fun n => optionNamesEn.contains n)
      = ["dept-IT-daily", "dept-IT-offhours"] ∧
    optionNamesEn.filter (fun n => optionNamesAr.contains n)
      = ["dept-IT-daily", "dept-IT-offhours"] ∧
    formAr.all (fun c =>
      !((formEn.map (fun c2 => c2.name)).contains c.name) ||
      (hardcodedNames.contains c.name ||
       c.name == "dept-IT-daily" || c.name == "dept-IT-offhours")) = true ∧
    formEn.all (fun c =>
      !((formAr.map (fun c2 => c2.name)).contains c.name) ||
      (hardcodedNames.contains c.name ||
       c.name == "dept-IT-daily" || c.name == "dept-IT-offhours")) = true ∧
    hardcodedNames.all (fun n =>
      (formAr.map (fun c => c.name)).contains n &&
      (formEn.map (fun c => c.name)).contains n) = true := by
  decide

/-- Witness for C1 (amended): on the concrete filling that checks the
first two project goals, the record stores the second option's literal
string under `projectGoals`, and by the amended theorem that membership
forces the last `FormData` entry under the name to be exactly it. -/
theorem submit_repeated_names_last_wins_witness :
    ("projectGoals", "رفع جودة الخدمة")
      ∈ submitRecord formAr fillingTwoGoals ∧
    lastLookup (formDataPairs formAr fillingTwoGoals) "projectGoals"
      = some "رفع جودة الخدمة" :=
  ⟨by decide,
   (submit_repeated_names_last_wins fillingTwoGoals "projectGoals").1.2
     "رفع جودة الخدمة" (by decide)⟩

/-- Witness for C4: after the toggle sequence `en`, `ar`, `en` the
active language is `en` and only the English variant is mounted. -/
theorem language_state_last_toggle_witness :
    languageAfter [AppLanguage.en, AppLanguage.ar, AppLanguage.en]
      = specLastToggle initialLanguage
          [AppLanguage.en, AppLanguage.ar, AppLanguage.en] ∧
    languageAfter [AppLanguage.en, AppLanguage.ar, AppLanguage.en]
      = AppLanguage.en :=
  ⟨(language_state_last_toggle [AppLanguage.en, AppLanguage.ar, AppLanguage.en]).1,
   by decide⟩

/-- Witness for C5: inside a provider scope holding `ar`, the hook
returns that context value. -/
theorem useLanguage_fail_fast_witness :
    useLanguage (some ⟨AppLanguage.ar⟩) = Except.ok ⟨AppLanguage.ar⟩ :=
  useLanguage_fail_fast.2 ⟨AppLanguage.ar⟩

/-- Witness for C6: with no window object the print action is the
silent no-op outcome. -/
theorem handlePrintAsPdf_never_throws_witness :
    handlePrintAsPdf false = PrintEffect.printed ∨
    handlePrintAsPdf false = PrintEffect.noop :=
  handlePrintAsPdf_never_throws.2.2 false

/-- Witness for C9: starting from `ar`, toggling to `en` and back to
`ar` restores the Arabic rendering exactly. -/
theorem language_roundtrip_witness :
    stepLang (stepLang AppLanguage.ar (otherLang AppLanguage.ar))
        AppLanguage.ar = AppLanguage.ar ∧
    renderApp (stepLang (stepLang AppLanguage.ar (otherLang AppLanguage.ar))
        AppLanguage.ar) = renderApp AppLanguage.ar :=
  language_roundtrip AppLanguage.ar

end RegisterAlo
